import Mathlib

/-!
Shallow embedding of src/controllers/authorController.js (express-locallibrary).

The controller is embedded as pure functions over an explicit record-store
state.  Each Express handler becomes a Lean function from the store (and the
request parameters it reads) to the list of response actions it emits, paired
with the updated store for the mutating handlers.  A handler normally emits
exactly one response; the list form is kept because `author_delete_get` in the
source calls `res.redirect` without returning and then falls through to
`res.render`, emitting two response actions on the not-found path.

Identifiers are natural numbers standing for the opaque ids the store assigns.
Mongoose calls are embedded as operations on the store state; the
express-validator chains are embedded field by field in the order the source
declares them, with sanitizers (trim, escape) transforming the value seen by
the validators that follow them, as the library applies them.
-/

/-- An Author record as stored: identity plus the four form-backed fields.
Dates are kept as the parsed ISO date text (`none` when the field was absent
or failed to parse, matching an unset/invalid mongoose date field). -/
structure Author where
  _id : Nat
  first_name : String
  family_name : String
  date_of_birth : Option String
  date_of_death : Option String
deriving Repr, DecidableEq

/-- A Book record; `author` is the non-owning back-reference to an Author id. -/
structure Book where
  _id : Nat
  title : String
  summary : String
  author : Nat
deriving Repr, DecidableEq

/-- The title+summary projection produced by Book.find(filter, "title summary");
MongoDB includes the record id in every projection. -/
structure BookProj where
  _id : Nat
  title : String
  summary : String
deriving Repr, DecidableEq

/-- The record store: the two collections plus the next identity the store
will assign on insert. -/
structure Store where
  nextId : Nat
  authors : List Author
  books : List Book
deriving Repr, DecidableEq

/-- One entry of errors.array(): the offending field (path) and its message. -/
structure FieldError where
  path : String
  msg : String
deriving Repr, DecidableEq

/-- A response action emitted through res / next.  Each render constructor
carries the view name (in the constructor) and the data bag the source passes
to res.render; redirect and error carry the redirect path, respectively the
message and status handed to next(err). -/
inductive Response where
  | renderAuthorList (title : String) (author_list : List Author)
  | renderAuthorDetail (title : String) (author : Author) (author_books : List BookProj)
  | renderAuthorDelete (title : String) (author : Option Author) (author_books : List BookProj)
  | renderAuthorForm (title : String) (author : Option Author)
      (author_books : Option (List Book)) (errors : Option (List FieldError))
  | redirect (path : String)
  | error (message : String) (status : Nat)
deriving Repr, DecidableEq

/-- Author.findById(id).exec(): the first stored Author with this id, if any. -/
def findAuthorById (s : Store) (id : Nat) : Option Author :=
  s.authors.find? (fun a => a._id == id)

/-- Book.find(\x7b author: id \x7d, "title summary").exec(). -/
def findBooksByAuthorProj (s : Store) (id : Nat) : List BookProj :=
  (s.books.filter (fun b => b.author == id)).map (fun b => ⟨b._id, b.title, b.summary⟩)

/-- Book.find(\x7b author: id \x7d).exec(): the unprojected variant. -/
def findBooksByAuthorFull (s : Store) (id : Nat) : List Book :=
  s.books.filter (fun b => b.author == id)

/-- Remove the first record with the given id, if present; the rest is kept. -/
def removeFirstById : List Author → Nat → List Author
  | [], _ => []
  | a :: rest, id => if a._id == id then rest else a :: removeFirstById rest id

/-- Author.findByIdAndDelete(id): deletes the matching record; a missing id
deletes nothing and does not raise. -/
def findByIdAndDelete (s : Store) (id : Nat) : Store :=
  { s with authors := removeFirstById s.authors id }

/-- Replace the fields of the first record with the given id by those of doc,
keeping the stored identity; no match leaves the list unchanged. -/
def replaceFirstById : List Author → Nat → Author → List Author
  | [], _, _ => []
  | a :: rest, id, doc =>
      if a._id == id then { doc with _id := a._id } :: rest
      else a :: replaceFirstById rest id doc

/-- Author.findByIdAndUpdate(id, doc): a missing id updates nothing. -/
def findByIdAndUpdate (s : Store) (id : Nat) (doc : Author) : Store :=
  { s with authors := replaceFirstById s.authors id doc }

/-- author.save() on a fresh record: the store appends it and advances the
identity counter. -/
def saveAuthor (s : Store) (a : Author) : Store :=
  { s with authors := s.authors ++ [a], nextId := s.nextId + 1 }

/-- Modelled from the spec: the Author model file (models/author.js) is not
under src/; the spec defines the canonical URL as a path derived
deterministically from the identity. -/
def authorUrl (id : Nat) : String :=
  "/catalog/author/" ++ toString id

def Author.url (a : Author) : String :=
  authorUrl a._id

/-- The trim sanitizer of the validator library: strip leading and trailing
whitespace from the submitted value. -/
def trimValue (s : String) : String :=
  ⟨((s.data.dropWhile Char.isWhitespace).reverse.dropWhile Char.isWhitespace).reverse⟩

/-- A character counted by the alphanumeric check of the validator library
(default en-US locale: ASCII letters and digits). -/
def isAlnumChar (c : Char) : Bool :=
  c.isAlpha || c.isDigit

/-- validator.isAlphanumeric: nonempty and every character alphanumeric. -/
def isAlphanumeric (s : String) : Bool :=
  !s.isEmpty && s.data.all isAlnumChar

/-- validator.escape on one character: the HTML-significant characters become
entities (each beginning with an ampersand), all others pass through. -/
def escapeCharList (c : Char) : List Char :=
  if c = '&' then "&amp;".data
  else if c = '"' then "&quot;".data
  else if c = Char.ofNat 39 then "&#x27;".data
  else if c = '<' then "&lt;".data
  else if c = '>' then "&gt;".data
  else if c = '/' then "&#x2F;".data
  else if c = Char.ofNat 92 then "&#x5C;".data
  else if c = Char.ofNat 96 then "&#96;".data
  else [c]

/-- validator.escape over a whole string. -/
def escape (s : String) : String :=
  ⟨(s.data.map escapeCharList).flatten⟩

/-- Modelled at the interface boundary of the validator library: isISO8601
restricted to the calendar-date form YYYY-MM-DD the application submits. -/
def isISO8601 (s : String) : Bool :=
  match s.data with
  | [y1, y2, y3, y4, h1, m1, m2, h2, d1, d2] =>
      y1.isDigit && y2.isDigit && y3.isDigit && y4.isDigit &&
      h1 = '-' && h2 = '-' &&
      m1.isDigit && m2.isDigit && d1.isDigit && d2.isDigit &&
      (let m := (m1.toNat - 48) * 10 + (m2.toNat - 48)
       let d := (d1.toNat - 48) * 10 + (d2.toNat - 48)
       1 ≤ m && m ≤ 12 && 1 ≤ d && d ≤ 31)
  | _ => false

/-- The create-side name chain: trim, isLength(min 1) with the required
message, escape, isAlphanumeric with the alphanumeric message.  The escaped
value is what isAlphanumeric sees, and is the sanitized value written back to
the request body.  All validators in a chain run, so both errors can be
collected for one field. -/
def nameChainCreate (path msgRequired msgAlnum : String) (value : String) :
    String × List FieldError :=
  let v1 := trimValue value
  let e1 := if v1.length ≥ 1 then [] else [⟨path, msgRequired⟩]
  let v2 := escape v1
  let e2 := if isAlphanumeric v2 then [] else [⟨path, msgAlnum⟩]
  (v2, e1 ++ e2)

/-- The update-side name chain: trim, isLength(min 1), escape — no
alphanumeric restriction. -/
def nameChainUpdate (path msg : String) (value : String) :
    String × List FieldError :=
  let v1 := trimValue value
  let e1 := if v1.length ≥ 1 then [] else [⟨path, msg⟩]
  (escape v1, e1)

/-- optional(\x7b values: "falsy" \x7d): a falsy value (the empty string here)
skips the rest of the chain for that field. -/
def optionalValuesFalsySkips (value : String) : Bool :=
  value = ""

/-- optional(\x7b checkFalsy: true \x7d): same skip condition in the library. -/
def optionalCheckFalsySkips (value : String) : Bool :=
  value = ""

/-- The create-side date chain: optional(values falsy), isISO8601, toDate. -/
def dateChainValuesFalsy (path msg : String) (value : String) :
    Option String × List FieldError :=
  if optionalValuesFalsySkips value then (none, [])
  else if isISO8601 value then (some value, [])
  else (none, [⟨path, msg⟩])

/-- The update-side date chain: optional(checkFalsy true), isISO8601, toDate. -/
def dateChainCheckFalsy (path msg : String) (value : String) :
    Option String × List FieldError :=
  if optionalCheckFalsySkips value then (none, [])
  else if isISO8601 value then (some value, [])
  else (none, [⟨path, msg⟩])

/-- The four form fields of a create/update POST body, as submitted (a field
the client omitted is the empty string, the falsy value the chains treat as
absent). -/
structure AuthorForm where
  first_name : String
  family_name : String
  date_of_birth : String
  date_of_death : String
deriving Repr, DecidableEq

/-- The sanitized values express-validator writes back into the request body. -/
structure SanitizedForm where
  first_name : String
  family_name : String
  date_of_birth : Option String
  date_of_death : Option String
deriving Repr, DecidableEq

/-- The create-side validation pipeline: the four chains in declaration
order, errors collected in that order. -/
def validateCreate (b : AuthorForm) : SanitizedForm × List FieldError :=
  let fn := nameChainCreate "first_name" "First name must be specified."
      "First name has non-alphanumeric characters." b.first_name
  let ln := nameChainCreate "family_name" "Family name must be specified."
      "Family name has non-alphanumeric characters." b.family_name
  let dob := dateChainValuesFalsy "date_of_birth" "Invalid date of birth" b.date_of_birth
  let dod := dateChainValuesFalsy "date_of_death" "Invalid date of death" b.date_of_death
  (⟨fn.1, ln.1, dob.1, dod.1⟩, fn.2 ++ ln.2 ++ dob.2 ++ dod.2)

/-- The update-side validation pipeline: looser name chains, same date rule. -/
def validateUpdate (b : AuthorForm) : SanitizedForm × List FieldError :=
  let fn := nameChainUpdate "first_name" "First name must not be empty." b.first_name
  let ln := nameChainUpdate "family_name" "Family name must not be empty." b.family_name
  let dob := dateChainCheckFalsy "date_of_birth" "Invalid date of birth" b.date_of_birth
  let dod := dateChainCheckFalsy "date_of_death" "Invalid date of death" b.date_of_death
  (⟨fn.1, ln.1, dob.1, dod.1⟩, fn.2 ++ ln.2 ++ dob.2 ++ dod.2)

/-- The candidate Author built in author_create_post from the sanitized body;
mongoose assigns the identity when the record is constructed, modelled as the
identity the store will assign next. -/
def candidateCreate (s : Store) (b : AuthorForm) : Author :=
  let san := (validateCreate b).1
  ⟨s.nextId, san.first_name, san.family_name, san.date_of_birth, san.date_of_death⟩

/-- The candidate Author built in author_update_post: the path id, never an
id from the form body, plus the sanitized fields. -/
def candidateUpdate (id : Nat) (b : AuthorForm) : Author :=
  let san := (validateUpdate b).1
  ⟨id, san.first_name, san.family_name, san.date_of_birth, san.date_of_death⟩

/-- Lexicographic character-code comparison on the character sequences of two
strings: the order MongoDB applies when sorting on a string key without a
collation (code-point order agrees with UTF-8 byte order). -/
def lexLe : List Char → List Char → Bool
  | [], _ => true
  | _ :: _, [] => false
  | a :: as, b :: bs =>
      if a < b then true
      else if b < a then false
      else lexLe as bs

/-- The sort key relation of sort(\x7b family_name: 1 \x7d): ascending
lexicographic order on family_name. -/
abbrev familyNameLe (a b : Author) : Prop :=
  lexLe a.family_name.data b.family_name.data = true

/-- exports.author_list: all Authors sorted by family_name ascending, handed
to the author_list view.  (The per-record console logging is an observability
side effect with no bearing on the store or the response.) -/
def author_list (s : Store) : List Response :=
  let allAuthors := List.insertionSort familyNameLe s.authors
  [Response.renderAuthorList "Author List" allAuthors]

/-- exports.author_detail: fetch the Author and the projected Books; a null
Author becomes a 404 error through next(err), otherwise the detail view. -/
def author_detail (s : Store) (id : Nat) : List Response :=
  let author := findAuthorById s id
  let allBooksByAuthor := findBooksByAuthorProj s id
  match author with
  | none => [Response.error "Author not found" 404]
  | some a => [Response.renderAuthorDetail "Author Detail" a allBooksByAuthor]

/-- exports.author_create_get: pure view-data assembly. -/
def author_create_get : List Response :=
  [Response.renderAuthorForm "Create Author" none none none]

/-- exports.author_create_post after the validation chains ran: on errors,
re-render the form with the candidate and the error list and leave the store
alone; otherwise save and redirect to the new record. -/
def author_create_post (s : Store) (b : AuthorForm) : Store × List Response :=
  let errors := (validateCreate b).2
  let author := candidateCreate s b
  if !errors.isEmpty then
    (s, [Response.renderAuthorForm "Create Author" (some author) none (some errors)])
  else
    (saveAuthor s author, [Response.redirect author.url])

/-- exports.author_delete_get: fetch Author and projected Books; on a null
Author the source calls res.redirect but does not return, so execution falls
through and res.render is invoked as well — both emitted actions are kept, in
order. -/
def author_delete_get (s : Store) (id : Nat) : List Response :=
  let author := findAuthorById s id
  let allBooksByAuthor := findBooksByAuthorProj s id
  let onNull := if author.isNone then [Response.redirect "/catalog/authors"] else []
  onNull ++ [Response.renderAuthorDelete "Delete Author" author allBooksByAuthor]

/-- exports.author_delete_post: re-fetch the Author at the path id and its
projected Books; with dependent Books, render the same confirmation view and
change nothing; otherwise delete the record named by the authorid form field
and redirect to the list. -/
def author_delete_post (s : Store) (id : Nat) (authorid : Nat) :
    Store × List Response :=
  let author := findAuthorById s id
  let allBooksByAuthor := findBooksByAuthorProj s id
  if allBooksByAuthor.length > 0 then
    (s, [Response.renderAuthorDelete "Delete Author" author allBooksByAuthor])
  else
    (findByIdAndDelete s authorid, [Response.redirect "/catalog/authors"])

/-- exports.author_update_get: fetch Author and full Books; null Author is a
404, otherwise the form view with the record and its books. -/
def author_update_get (s : Store) (id : Nat) : List Response :=
  let author := findAuthorById s id
  let booksByAuthor := findBooksByAuthorFull s id
  match author with
  | none => [Response.error "Author not found" 404]
  | some a =>
      [Response.renderAuthorForm "Update Author" (some a) (some booksByAuthor) none]

/-- exports.author_update_post after the validation chains ran: on errors,
re-fetch the full Books and re-render with the candidate and errors; otherwise
update the record at the path id and redirect to its canonical URL. -/
def author_update_post (s : Store) (id : Nat) (b : AuthorForm) :
    Store × List Response :=
  let errors := (validateUpdate b).2
  let author := candidateUpdate id b
  if !errors.isEmpty then
    let author_books := findBooksByAuthorFull s id
    (s, [Response.renderAuthorForm "Update Author" (some author) (some author_books)
          (some errors)])
  else
    (findByIdAndUpdate s id author, [Response.redirect author.url])

/-! Order facts about the sort key comparison, and the bridge between the
code-point comparison and the lexicographic order on strings. -/

theorem lexLe_cons_iff (a b : Char) (as bs : List Char) :
    lexLe (a :: as) (b :: bs) = true ↔
      (a < b ∨ (¬ a < b ∧ ¬ b < a ∧ lexLe as bs = true)) := by
  by_cases h1 : a < b
  · simp [lexLe, h1]
  · by_cases h2 : b < a
    · simp [lexLe, h1, h2, lt_asymm h2]
    · simp [lexLe, h1, h2]

theorem lexLe_total : ∀ as bs : List Char, lexLe as bs = true ∨ lexLe bs as = true
  | [], _ => Or.inl rfl
  | _ :: _, [] => Or.inr rfl
  | a :: as, b :: bs => by
    by_cases h1 : a < b
    · left; simp [lexLe, h1]
    · by_cases h2 : b < a
      · right; simp [lexLe, h2]
      · rcases lexLe_total as bs with h | h
        · left; simp [lexLe, h1, h2, h]
        · right; simp [lexLe, h1, h2, h]

theorem lexLe_trans : ∀ as bs cs : List Char,
    lexLe as bs = true → lexLe bs cs = true → lexLe as cs = true
  | [], _, _, _, _ => rfl
  | _ :: _, [], _, h1, _ => by simp [lexLe] at h1
  | _ :: _, _ :: _, [], _, h2 => by simp [lexLe] at h2
  | a :: as, b :: bs, c :: cs, h1, h2 => by
    rw [lexLe_cons_iff] at h1 h2 ⊢
    rcases h1 with h1 | ⟨hab1, hab2, h1⟩
    · rcases h2 with h2 | ⟨hbc1, hbc2, h2⟩
      · exact Or.inl (lt_trans h1 h2)
      · have hbc : b = c := le_antisymm (not_lt.mp hbc2) (not_lt.mp hbc1)
        exact Or.inl (hbc ▸ h1)
    · rcases h2 with h2 | ⟨hbc1, hbc2, h2⟩
      · have hab : a = b := le_antisymm (not_lt.mp hab2) (not_lt.mp hab1)
        exact Or.inl (hab ▸ h2)
      · have hab : a = b := le_antisymm (not_lt.mp hab2) (not_lt.mp hab1)
        have hbc : b = c := le_antisymm (not_lt.mp hbc2) (not_lt.mp hbc1)
        subst hab; subst hbc
        exact Or.inr ⟨hab1, hab2, lexLe_trans as bs cs h1 h2⟩

instance : IsTotal Author familyNameLe :=
  ⟨fun _ _ => lexLe_total _ _⟩

instance : IsTrans Author familyNameLe :=
  ⟨fun _ _ _ => lexLe_trans _ _ _⟩

theorem lexLe_eq_true_iff_not_lt : ∀ as bs : List Char,
    lexLe as bs = true ↔ ¬ List.lt bs as
  | [], bs => iff_of_true rfl (fun h => by cases h)
  | a :: as, [] => iff_of_false (by simp [lexLe]) (fun hn => hn (List.lt.nil a as))
  | a :: as, b :: bs => by
    rw [lexLe_cons_iff]
    constructor
    · rintro (h | ⟨h1, h2, h3⟩) hlt
      · cases hlt with
        | head _ _ hba => exact absurd h (lt_asymm hba)
        | tail hba hab _ => exact hab h
      · cases hlt with
        | head _ _ hba => exact h2 hba
        | tail _ _ htl => exact ((lexLe_eq_true_iff_not_lt as bs).mp h3) htl
    · intro hn
      by_cases h1 : a < b
      · exact Or.inl h1
      · by_cases h2 : b < a
        · exact absurd (List.lt.head _ _ h2) hn
        · exact Or.inr ⟨h1, h2, (lexLe_eq_true_iff_not_lt as bs).mpr
            (fun htl => hn (List.lt.tail h2 h1 htl))⟩

theorem lexLe_iff_le (s t : String) : lexLe s.data t.data = true ↔ s ≤ t := by
  rw [lexLe_eq_true_iff_not_lt, String.le_iff_toList_le, ← not_lt]
  exact not_congr (List.lt_iff_lex_lt t.toList s.toList)

/-! Helper lemmas about the store operations. -/

theorem mem_removeFirstById {l : List Author} {id : Nat} {a : Author}
    (ha : a ∈ l) (hne : a._id ≠ id) : a ∈ removeFirstById l id := by
  induction l with
  | nil => cases ha
  | cons x xs ih =>
    by_cases hx : (x._id == id) = true
    · rcases List.mem_cons.mp ha with rfl | h
      · exact absurd (eq_of_beq hx) hne
      · simpa [removeFirstById, hx] using h
    · rcases List.mem_cons.mp ha with rfl | h
      · simp [removeFirstById, hx]
      · simp only [removeFirstById, hx, if_false, Bool.false_eq_true]
        exact List.mem_cons_of_mem _ (ih h)

theorem removeFirstById_eq_of_find?_none {l : List Author} {id : Nat}
    (h : l.find? (fun a => a._id == id) = none) : removeFirstById l id = l := by
  induction l with
  | nil => rfl
  | cons x xs ih =>
    have h' := List.find?_eq_none.mp h
    have hx : ¬ (x._id == id) = true := h' x (List.mem_cons_self _ _)
    have hxs : xs.find? (fun a => a._id == id) = none :=
      List.find?_eq_none.mpr (fun y hy => h' y (List.mem_cons_of_mem _ hy))
    simp [removeFirstById, hx, ih hxs]

theorem replaceFirstById_map_id (l : List Author) (id : Nat) (doc : Author) :
    (replaceFirstById l id doc).map (fun a => a._id) = l.map (fun a => a._id) := by
  induction l with
  | nil => rfl
  | cons x xs ih =>
    by_cases hx : (x._id == id) = true
    · simp [replaceFirstById, hx]
    · simp [replaceFirstById, hx, ih]

theorem find?_replaceFirstById (l : List Author) (id : Nat) (doc : Author)
    (hdoc : doc._id = id) :
    (replaceFirstById l id doc).find? (fun a => a._id == id) =
      (l.find? (fun a => a._id == id)).map (fun _ => doc) := by
  induction l with
  | nil => rfl
  | cons x xs ih =>
    by_cases hx : (x._id == id) = true
    · have hdd : ({ doc with _id := x._id } : Author) = doc := by
        have hxe : x._id = id := eq_of_beq hx
        cases doc; simp_all
      rw [replaceFirstById]
      simp only [hx, if_true]
      rw [List.find?_cons, List.find?_cons]
      have htest : (({ doc with _id := x._id } : Author)._id == id) = true := hx
      simp [htest, hx, hdd]
    · rw [replaceFirstById]
      simp only [hx, if_false, Bool.false_eq_true]
      rw [List.find?_cons, List.find?_cons]
      simp [hx, ih]

/-! Helper lemmas about the validation pipeline. -/

theorem escapeCharList_not_alnum {c : Char} (h : isAlnumChar c = false) :
    ∃ d ∈ escapeCharList c, isAlnumChar d = false := by
  unfold escapeCharList
  split_ifs <;>
    first
      | exact ⟨'&', by decide, by decide⟩
      | exact ⟨c, by simp, h⟩

theorem escape_not_alphanumeric {s : String}
    (h : ∃ c ∈ s.data, isAlnumChar c = false) :
    isAlphanumeric (escape s) = false := by
  obtain ⟨c, hc, hcf⟩ := h
  obtain ⟨d, hd, hdf⟩ := escapeCharList_not_alnum hcf
  have hmem : d ∈ (escape s).data := by
    show d ∈ (s.data.map escapeCharList).flatten
    exact List.mem_flatten.mpr ⟨escapeCharList c, List.mem_map_of_mem _ hc, hd⟩
  simp only [isAlphanumeric, Bool.and_eq_false_iff]
  right
  exact List.all_eq_false.mpr ⟨d, hmem, by simp [hdf]⟩

/-! Claim theorems. -/

/-- Claim C1: when the re-fetched sequence of Books referencing the path id is
non-empty, author_delete_post leaves the store untouched and responds with the
author_delete render carrying the looked-up author and its referencing books —
the very render author_delete_get emits — so an Author is removed only when
zero Books reference it at the re-check. -/
theorem delete_guard_blocks_removal (s : Store) (id authorid : Nat)
    (h : findBooksByAuthorProj s id ≠ []) :
    (author_delete_post s id authorid).1 = s ∧
    (author_delete_post s id authorid).2 =
      [Response.renderAuthorDelete "Delete Author" (findAuthorById s id)
        (findBooksByAuthorProj s id)] ∧
    Response.renderAuthorDelete "Delete Author" (findAuthorById s id)
        (findBooksByAuthorProj s id) ∈ author_delete_get s id := by
  have hlen : 0 < (findBooksByAuthorProj s id).length := List.length_pos.mpr h
  refine ⟨?_, ?_, ?_⟩
  · simp [author_delete_post, hlen]
  · simp [author_delete_post, hlen]
  · simp [author_delete_get]

/-- Witness for C1: a store with one author and one referencing book. -/
theorem delete_guard_blocks_removal_witness :
    findBooksByAuthorProj ⟨2, [⟨1, "Jane", "Austen", none, none⟩],
        [⟨1, "Emma", "A novel", 1⟩]⟩ 1 ≠ [] ∧
    (author_delete_post ⟨2, [⟨1, "Jane", "Austen", none, none⟩],
        [⟨1, "Emma", "A novel", 1⟩]⟩ 1 1).1 =
      ⟨2, [⟨1, "Jane", "Austen", none, none⟩], [⟨1, "Emma", "A novel", 1⟩]⟩ :=
  ⟨by decide,
   (delete_guard_blocks_removal ⟨2, [⟨1, "Jane", "Austen", none, none⟩],
      [⟨1, "Emma", "A novel", 1⟩]⟩ 1 1 (by decide)).1⟩

/-- Claim C2: a create request whose validation pipeline reports at least one
error persists nothing — the store is returned unchanged — and re-renders the
form with the sanitized candidate and the ordered error list; a missing
required name field contributes an error naming that field. -/
theorem create_validation_atomic (s : Store) (b : AuthorForm)
    (h : (validateCreate b).2 ≠ []) :
    (author_create_post s b).1 = s ∧
    (author_create_post s b).2 =
      [Response.renderAuthorForm "Create Author" (some (candidateCreate s b)) none
        (some (validateCreate b).2)] ∧
    (trimValue b.first_name = "" →
      FieldError.mk "first_name" "First name must be specified." ∈ (validateCreate b).2) ∧
    (trimValue b.family_name = "" →
      FieldError.mk "family_name" "Family name must be specified." ∈ (validateCreate b).2) := by
  refine ⟨?_, ?_, ?_, ?_⟩
  · cases hval : (validateCreate b).2 with
    | nil => exact absurd hval h
    | cons e es => simp [author_create_post, hval]
  · cases hval : (validateCreate b).2 with
    | nil => exact absurd hval h
    | cons e es => simp [author_create_post, candidateCreate, hval]
  · intro htrim
    have hlen : ¬ ((trimValue b.first_name).length ≥ 1) := by rw [htrim]; decide
    simp [validateCreate, nameChainCreate, hlen]
  · intro htrim
    have hlen : ¬ ((trimValue b.family_name).length ≥ 1) := by rw [htrim]; decide
    simp [validateCreate, nameChainCreate, hlen]

/-- Witness for C2: a body missing the first_name field. -/
theorem create_validation_atomic_witness :
    (validateCreate ⟨"", "Austen", "", ""⟩).2 ≠ [] ∧
    trimValue ("" : String) = "" ∧
    ((author_create_post ⟨1, [], []⟩ ⟨"", "Austen", "", ""⟩).1 = ⟨1, [], []⟩ ∧
     FieldError.mk "first_name" "First name must be specified." ∈
       (validateCreate ⟨"", "Austen", "", ""⟩).2) :=
  ⟨by decide, by decide,
   ⟨(create_validation_atomic ⟨1, [], []⟩ ⟨"", "Austen", "", ""⟩ (by decide)).1,
    (create_validation_atomic ⟨1, [], []⟩ ⟨"", "Austen", "", ""⟩ (by decide)).2.2.1
      (by decide)⟩⟩

/-- Claim C3: the update candidate always carries the path id as its identity;
a failed validation leaves the store untouched, and a successful update keeps
every stored identity, stores the candidate under the path id, and redirects
to the canonical URL of that id — never an identity from the form body. -/
theorem update_preserves_identity (s : Store) (id : Nat) (b : AuthorForm) :
    (candidateUpdate id b)._id = id ∧
    ((validateUpdate b).2 ≠ [] → (author_update_post s id b).1 = s) ∧
    ((validateUpdate b).2 = [] →
      (author_update_post s id b).1.authors.map (fun a => a._id) =
        s.authors.map (fun a => a._id) ∧
      findAuthorById (author_update_post s id b).1 id =
        (findAuthorById s id).map (fun _ => candidateUpdate id b) ∧
      (author_update_post s id b).2 = [Response.redirect (authorUrl id)]) := by
  refine ⟨rfl, ?_, ?_⟩
  · intro hne
    cases hval : (validateUpdate b).2 with
    | nil => exact absurd hval hne
    | cons e es => simp [author_update_post, hval]
  · intro hval
    refine ⟨?_, ?_, ?_⟩
    · simp [author_update_post, hval, findByIdAndUpdate, replaceFirstById_map_id]
    · simp only [author_update_post, hval, List.isEmpty_nil, Bool.not_true,
        Bool.false_eq_true, if_false]
      exact find?_replaceFirstById s.authors id (candidateUpdate id b) rfl
    · simp [author_update_post, hval, Author.url, authorUrl, candidateUpdate]

/-- Witness for C3: updating the only author of a one-author store. -/
theorem update_preserves_identity_witness :
    (validateUpdate ⟨"Jane", "Austen", "", ""⟩).2 = [] ∧
    (candidateUpdate 1 ⟨"Jane", "Austen", "", ""⟩)._id = 1 ∧
    (author_update_post ⟨2, [⟨1, "A", "B", none, none⟩], []⟩ 1
        ⟨"Jane", "Austen", "", ""⟩).2 = [Response.redirect (authorUrl 1)] :=
  ⟨by decide,
   (update_preserves_identity ⟨2, [⟨1, "A", "B", none, none⟩], []⟩ 1
      ⟨"Jane", "Austen", "", ""⟩).1,
   ((update_preserves_identity ⟨2, [⟨1, "A", "B", none, none⟩], []⟩ 1
      ⟨"Jane", "Austen", "", ""⟩).2.2 (by decide)).2.2⟩

/-- Claim C4 (code divergence witness): on a store holding no author with the
requested id, author_delete_get emits the redirect to the author list and then
also the author_delete render — the source lacks a return after res.redirect,
so the handler does not respond with exactly one outcome. -/
theorem delete_get_absent_author_double_response :
    author_delete_get ⟨1, [], []⟩ 5 =
      [Response.redirect "/catalog/authors",
       Response.renderAuthorDelete "Delete Author" none []] := by decide

/-- Claim C5: when the re-fetched referencing-Books sequence for the path id
is empty, the record deleted is the first one matching the authorid form field
— no equality with the path id is checked, every author with a different id
survives, books are untouched — and the handler redirects to the author list. -/
theorem delete_targets_submitted_id (s : Store) (id authorid : Nat)
    (h : findBooksByAuthorProj s id = []) :
    (author_delete_post s id authorid).1.authors = removeFirstById s.authors authorid ∧
    (author_delete_post s id authorid).1.books = s.books ∧
    (∀ a, a ∈ s.authors → a._id ≠ authorid →
      a ∈ (author_delete_post s id authorid).1.authors) ∧
    (author_delete_post s id authorid).2 = [Response.redirect "/catalog/authors"] := by
  have hlen : ¬ (0 < (findBooksByAuthorProj s id).length) := by simp [h]
  refine ⟨?_, ?_, ?_, ?_⟩
  · simp [author_delete_post, hlen, findByIdAndDelete]
  · simp [author_delete_post, hlen, findByIdAndDelete]
  · intro a ha hne
    simp only [author_delete_post, hlen, if_false, gt_iff_lt]
    simp only [findByIdAndDelete]
    exact mem_removeFirstById ha hne
  · simp [author_delete_post, hlen]

/-- Witness for C5: path id 1 and form authorid 2 — the author with id 2 is
the one removed, the author at the path id survives. -/
theorem delete_targets_submitted_id_witness :
    findBooksByAuthorProj ⟨3, [⟨1, "A", "B", none, none⟩, ⟨2, "C", "D", none, none⟩], []⟩ 1
        = [] ∧
    (author_delete_post ⟨3, [⟨1, "A", "B", none, none⟩, ⟨2, "C", "D", none, none⟩], []⟩ 1 2).1.authors
        = removeFirstById [⟨1, "A", "B", none, none⟩, ⟨2, "C", "D", none, none⟩] 2 ∧
    removeFirstById [⟨1, "A", "B", none, none⟩, ⟨2, "C", "D", none, none⟩] 2 =
        [⟨1, "A", "B", none, none⟩] :=
  ⟨by decide,
   (delete_targets_submitted_id
      ⟨3, [⟨1, "A", "B", none, none⟩, ⟨2, "C", "D", none, none⟩], []⟩ 1 2 (by decide)).1,
   by decide⟩

/-- Claim C6: author_detail on a missing Author produces exactly the 404
NotFound error and no render; on a found Author it renders the detail view
with the author and the title+summary projection of its books. -/
theorem detail_not_found_404 (s : Store) (id : Nat) :
    (findAuthorById s id = none →
      author_detail s id = [Response.error "Author not found" 404]) ∧
    (∀ a, findAuthorById s id = some a →
      author_detail s id =
        [Response.renderAuthorDetail "Author Detail" a (findBooksByAuthorProj s id)]) := by
  constructor
  · intro h; simp [author_detail, h]
  · intro a h; simp [author_detail, h]

/-- Witness for C6: both branches at concrete stores. -/
theorem detail_not_found_404_witness :
    author_detail ⟨1, [], []⟩ 5 = [Response.error "Author not found" 404] ∧
    author_detail ⟨2, [⟨1, "Jane", "Austen", none, none⟩], []⟩ 1 =
      [Response.renderAuthorDetail "Author Detail" ⟨1, "Jane", "Austen", none, none⟩ []] :=
  ⟨(detail_not_found_404 ⟨1, [], []⟩ 5).1 (by decide),
   (detail_not_found_404 ⟨2, [⟨1, "Jane", "Austen", none, none⟩], []⟩ 1).2
     ⟨1, "Jane", "Austen", none, none⟩ (by decide)⟩

/-- Claim C7: a delete POST whose re-fetch finds no referencing Books and
whose authorid names no stored record does not raise: the delete removes
nothing, the store comes back unchanged, and the response is the redirect to
the author list. -/
theorem delete_absent_author_noop (s : Store) (id authorid : Nat)
    (hb : findBooksByAuthorProj s id = [])
    (ha : findAuthorById s authorid = none) :
    author_delete_post s id authorid = (s, [Response.redirect "/catalog/authors"]) := by
  have hlen : ¬ (0 < (findBooksByAuthorProj s id).length) := by simp [hb]
  have hrm : removeFirstById s.authors authorid = s.authors :=
    removeFirstById_eq_of_find?_none ha
  simp [author_delete_post, hlen, findByIdAndDelete, hrm]

/-- Witness for C7: deleting from an empty store. -/
theorem delete_absent_author_noop_witness :
    findBooksByAuthorProj ⟨1, [], []⟩ 5 = [] ∧
    findAuthorById ⟨1, [], []⟩ 5 = none ∧
    author_delete_post ⟨1, [], []⟩ 5 5 =
      (⟨1, [], []⟩, [Response.redirect "/catalog/authors"]) :=
  ⟨by decide, by decide,
   delete_absent_author_noop ⟨1, [], []⟩ 5 5 (by decide) (by decide)⟩

/-- Claim C8: author_list renders the full set of stored Authors — a
permutation of the authors collection — sorted by family_name ascending, and
on the spec example with family_names Tolkien, Austen, Bronte the rendered
order is Austen, Bronte, Tolkien. -/
theorem list_authors_sorted :
    (∀ s : Store, ∃ l : List Author,
      author_list s = [Response.renderAuthorList "Author List" l] ∧
      List.Perm l s.authors ∧
      List.Sorted (fun a b : Author => a.family_name ≤ b.family_name) l) ∧
    author_list ⟨4, [⟨1, "J", "Tolkien", none, none⟩, ⟨2, "Jane", "Austen", none, none⟩,
        ⟨3, "C", "Bronte", none, none⟩], []⟩ =
      [Response.renderAuthorList "Author List"
        [⟨2, "Jane", "Austen", none, none⟩, ⟨3, "C", "Bronte", none, none⟩,
         ⟨1, "J", "Tolkien", none, none⟩]] := by
  constructor
  · intro s
    refine ⟨List.insertionSort familyNameLe s.authors, rfl,
      List.perm_insertionSort _ _, ?_⟩
    have hs := List.sorted_insertionSort familyNameLe s.authors
    exact hs.imp (fun h => (lexLe_iff_le _ _).mp h)
  · decide

/-- Claim C9: a name value that is non-empty after trimming but contains a
non-alphanumeric character passes the update name chain without error (and
the update request goes on to write the store), while the create chain records
the alphanumeric-violation error for that field (and the create request leaves
the store unchanged); the optional-date chains of the two pipelines agree on
every input. -/
theorem update_validation_looser (v : String)
    (h1 : 1 ≤ (trimValue v).length)
    (h2 : ∃ c ∈ (trimValue v).data, isAlnumChar c = false) :
    (nameChainUpdate "first_name" "First name must not be empty." v).2 = [] ∧
    (nameChainCreate "first_name" "First name must be specified."
        "First name has non-alphanumeric characters." v).2 =
      [FieldError.mk "first_name" "First name has non-alphanumeric characters."] ∧
    (∀ s : Store, ∀ id : Nat,
      (author_update_post s id ⟨v, "X", "", ""⟩).1 =
        findByIdAndUpdate s id (candidateUpdate id ⟨v, "X", "", ""⟩) ∧
      (author_create_post s ⟨v, "X", "", ""⟩).1 = s) ∧
    (∀ path msg w, dateChainValuesFalsy path msg w = dateChainCheckFalsy path msg w) := by
  have halnum : isAlphanumeric (escape (trimValue v)) = false :=
    escape_not_alphanumeric h2
  have hupd : (nameChainUpdate "first_name" "First name must not be empty." v).2 = [] := by
    simp [nameChainUpdate, h1]
  have hcr : (nameChainCreate "first_name" "First name must be specified."
      "First name has non-alphanumeric characters." v).2 =
      [FieldError.mk "first_name" "First name has non-alphanumeric characters."] := by
    simp [nameChainCreate, h1, halnum]
  refine ⟨hupd, hcr, ?_, fun path msg w => rfl⟩
  intro s id
  have hvu : (validateUpdate ⟨v, "X", "", ""⟩).2 = [] := by
    have hX : 1 ≤ (trimValue "X").length := by decide
    simp [validateUpdate, nameChainUpdate, dateChainCheckFalsy,
      optionalCheckFalsySkips, h1, hX]
  have hvc : FieldError.mk "first_name" "First name has non-alphanumeric characters." ∈
      (validateCreate ⟨v, "X", "", ""⟩).2 := by
    simp only [validateCreate]
    exact List.mem_append_left _ (List.mem_append_left _ (by rw [hcr]; simp))
  constructor
  · simp [author_update_post, hvu]
  · cases hval : (validateCreate ⟨v, "X", "", ""⟩).2 with
    | nil => rw [hval] at hvc; cases hvc
    | cons e es => simp [author_create_post, hval]

/-- Witness for C9: the spec example value Jane123!. -/
theorem update_validation_looser_witness :
    1 ≤ (trimValue "Jane123!").length ∧
    (∃ c ∈ (trimValue "Jane123!").data, isAlnumChar c = false) ∧
    ((nameChainUpdate "first_name" "First name must not be empty." "Jane123!").2 = [] ∧
     (nameChainCreate "first_name" "First name must be specified."
        "First name has non-alphanumeric characters." "Jane123!").2 =
      [FieldError.mk "first_name" "First name has non-alphanumeric characters."]) :=
  ⟨by decide, by decide,
   ⟨(update_validation_looser "Jane123!" (by decide) (by decide)).1,
    (update_validation_looser "Jane123!" (by decide) (by decide)).2.1⟩⟩

/-- Claim C10: when the re-fetched referencing-Books sequence is non-empty but
no Author is stored under the path id, author_delete_post still renders the
delete-confirmation view with a null author — the books-non-empty branch never
checks whether the author exists. -/
theorem delete_post_null_author_renders (s : Store) (id authorid : Nat)
    (ha : findAuthorById s id = none)
    (hb : findBooksByAuthorProj s id ≠ []) :
    author_delete_post s id authorid =
      (s, [Response.renderAuthorDelete "Delete Author" none
        (findBooksByAuthorProj s id)]) := by
  have hlen : 0 < (findBooksByAuthorProj s id).length := List.length_pos.mpr hb
  simp [author_delete_post, ha, hlen]

/-- Witness for C10: a dangling book referencing the absent author id 7. -/
theorem delete_post_null_author_renders_witness :
    findAuthorById ⟨1, [], [⟨1, "Emma", "A novel", 7⟩]⟩ 7 = none ∧
    findBooksByAuthorProj ⟨1, [], [⟨1, "Emma", "A novel", 7⟩]⟩ 7 ≠ [] ∧
    author_delete_post ⟨1, [], [⟨1, "Emma", "A novel", 7⟩]⟩ 7 7 =
      (⟨1, [], [⟨1, "Emma", "A novel", 7⟩]⟩,
       [Response.renderAuthorDelete "Delete Author" none [⟨1, "Emma", "A novel"⟩]]) :=
  ⟨by decide, by decide, by
    have h := delete_post_null_author_renders ⟨1, [], [⟨1, "Emma", "A novel", 7⟩]⟩ 7 7
      (by decide) (by decide)
    simpa using h⟩
